import Mathlib

/-!
# Verification of the dotfilesvault core

A shallow embedding of the vault synchronization and history model of the
`dotfilesvault` crate (sources: `lib.rs`, `backup.rs`, `restore.rs`,
`history.rs`), together with proofs of the specified properties.

Paths are modelled as an absolute-flag plus a list of normal components,
mirroring the component-wise semantics of Rust `PathBuf` operations
(`join`, `strip_prefix`, `starts_with`, `file_name`) on the paths this
program manipulates.  The filesystem is modelled as an association list of
file paths to contents plus a list of created directories; `fs::copy`
fails on a missing source and otherwise truncates the destination before
reading it, so copying a file onto itself empties it.  The git snapshot
store
(`git2::Repository`) is modelled as a newest-first list of commits, each
carrying its staged tree as the list of vault-relative keys; `revwalk` from
HEAD visits this list in order, which is the latest-first ancestry walk of
the single linear branch the program ever creates.
-/

/-- A filesystem path: mirrors Rust `PathBuf` as an absolute-flag plus the
list of normal components. -/
structure PathV where
  absolute : Bool
  components : List String
deriving DecidableEq, Repr

namespace PathV

/-- Rust `Path::join` / `PathBuf::push`: pushing an absolute path replaces
`self` entirely; pushing a relative path appends its components. -/
def join (a b : PathV) : PathV :=
  if b.absolute then b else ⟨a.absolute, a.components ++ b.components⟩

/-- Rust `Path::strip_prefix`: succeeds when `pre`'s components are a
component-wise prefix of `p`'s (and the two agree on absoluteness), and
returns the remaining components as a relative path. -/
def stripPre (p pre : PathV) : Option PathV :=
  if pre.absolute = p.absolute ∧ pre.components <+: p.components then
    some ⟨false, p.components.drop pre.components.length⟩
  else none

/-- Rust `Path::starts_with`: `p.starts_with(pre)` holds exactly when
`p.strip_prefix(pre)` succeeds. -/
def startsWith (p pre : PathV) : Bool :=
  (p.stripPre pre).isSome

/-- Rust `Path::file_name`: the final (normal) component. -/
def fileName (p : PathV) : Option String :=
  p.components.getLast?

/-- Rust `Path::parent`: drop the final component; `none` when there is no
component to drop. -/
def parent (p : PathV) : Option PathV :=
  match p.components with
  | [] => none
  | _ :: _ => some ⟨p.absolute, p.components.dropLast⟩

/-- All ancestor paths of `p` (including `p` itself), as created by
`fs::create_dir_all`. -/
def ancestors (p : PathV) : List PathV :=
  (List.range (p.components.length + 1)).map (fun n => ⟨p.absolute, p.components.take n⟩)

end PathV

/-- Rust `str::starts_with('.')` on a file name. -/
def strStartsWithDot (s : String) : Bool :=
  match s.data with
  | [] => false
  | ch :: _ => ch = '.'

/-- `is_dotfile` (`lib.rs`): the file name exists and starts with `'.'`. -/
def is_dotfile (p : PathV) : Bool :=
  match p.fileName with
  | some name => strStartsWithDot name
  | none => false

/-- `DotfilesError` (`lib.rs`).  `io` abstracts the wrapped
`std::io::Error`; `git` abstracts the wrapped `git2::Error`. -/
inductive DotfilesError where
  | io : DotfilesError
  | noHomeDir : DotfilesError
  | noDotfilesVaultDir : DotfilesError
  | dotfileNotFound : PathV → DotfilesError
  | versionNotFound : PathV → DotfilesError
  | git : String → DotfilesError
deriving DecidableEq, Repr

/-- File contents, abstracting the byte sequence copied by `fs::copy`. -/
abbrev Content := String

/-- The filesystem state: files (an association list, most recent write
first) and the set of directories created so far. -/
structure FS where
  files : List (PathV × Content)
  dirs : List PathV
deriving DecidableEq, Repr

/-- First-match lookup in the file association list. -/
def lookupFile : List (PathV × Content) → PathV → Option Content
  | [], _ => none
  | e :: es, p => if e.1 = p then some e.2 else lookupFile es p

namespace FS

/-- Read a file's content. -/
def read (fs : FS) (p : PathV) : Option Content :=
  lookupFile fs.files p

/-- Write (create or overwrite) a file. -/
def write (fs : FS) (p : PathV) (c : Content) : FS :=
  ⟨(p, c) :: fs.files, fs.dirs⟩

/-- Rust `Path::exists`: true for an existing file or a created directory. -/
def pathExists (fs : FS) (p : PathV) : Bool :=
  (fs.read p).isSome || decide (p ∈ fs.dirs)

/-- `fs::create_dir_all`: create the directory and all its ancestors. -/
def mkdirAll (fs : FS) (p : PathV) : FS :=
  ⟨fs.files, p.ancestors ++ fs.dirs⟩

/-- Create the parent directories of `p`, as both copy routines do before
copying (`fs::create_dir_all` on `p.parent()`). -/
def mkdirParents (fs : FS) (p : PathV) : FS :=
  match p.parent with
  | some par => fs.mkdirAll par
  | none => fs

/-- `fs::copy src dst`: fails (an IO error) when the source is not a
readable file; otherwise opens the destination with truncation *before*
reading the source and streams the content across.  When the destination
is the source itself, the truncating open empties the file first, the
subsequent read hits immediate end-of-file, and the copy succeeds leaving
a zero-byte file; for distinct paths the destination receives the
source's content. -/
def copy (fs : FS) (src dst : PathV) : Except DotfilesError FS :=
  match fs.read src with
  | some c => .ok (fs.write dst (if dst = src then "" else c))
  | none => .error .io

end FS

/-- `Config` (`lib.rs`): the vault directory and the home directory. -/
structure Config where
  vault_dir : PathV
  home_dir : PathV
deriving DecidableEq, Repr

/-- The path-resolution step shared by `backup_specific_dotfiles`,
`restore_specific_dotfile` and `get_dotfile_history`: an absolute input is
used as-is, a relative input is joined onto the home directory. -/
def Config.resolve (config : Config) (p : PathV) : PathV :=
  if p.absolute then p else config.home_dir.join p

/-- `Config::init_vault_dir`: create the vault directory if absent. -/
def Config.init_vault_dir (config : Config) (fs : FS) : FS :=
  if fs.pathExists config.vault_dir then fs else fs.mkdirAll config.vault_dir

/-- `Dotfile` (`backup.rs`): the original/vault path pair. -/
structure Dotfile where
  original_path : PathV
  vault_path : PathV
deriving DecidableEq, Repr

/-- `Dotfile::new` (`backup.rs`): strip the home-directory prefix from the
original path (falling back to the original path itself when the strip
fails) and join the result onto the vault directory. -/
def Dotfile.new (original_path : PathV) (config : Config) : Dotfile :=
  let relative_path := (original_path.stripPre config.home_dir).getD original_path
  let vault_path := config.vault_dir.join relative_path
  ⟨original_path, vault_path⟩

/-- `find_dotfiles` (`backup.rs`): over the entries yielded by the walk of
the home directory (`entries`, in tree-walk order), skip anything under the
vault directory, and keep the paths that are dotfiles and regular files. -/
def find_dotfiles (config : Config) (fs : FS) (entries : List PathV) : List Dotfile :=
  (entries.filter
    (fun p => !(p.startsWith config.vault_dir) && (is_dotfile p && (fs.read p).isSome))).map
    (fun p => Dotfile.new p config)

/-- `backup_dotfile` (`backup.rs`): create the vault-side parent
directories, then copy original → vault. -/
def backup_dotfile (fs : FS) (d : Dotfile) : Except DotfilesError FS :=
  (fs.mkdirParents d.vault_path).copy d.original_path d.vault_path

/-- The per-file loop of `backup_specific_dotfiles` (`backup.rs`): resolve
each input, fail with `DotfileNotFound` when the resolved path does not
exist, silently skip non-dotfiles, and otherwise back the file up. -/
def backupSpecificGo (config : Config) (fs : FS) : List PathV → Except DotfilesError FS
  | [] => .ok fs
  | f :: rest =>
    let path := config.resolve f
    if fs.pathExists path then
      if is_dotfile path then
        match backup_dotfile fs (Dotfile.new path config) with
        | .ok fs2 => backupSpecificGo config fs2 rest
        | .error e => .error e
      else backupSpecificGo config fs rest
    else .error (.dotfileNotFound f)

/-- `backup_specific_dotfiles` (`backup.rs`): initialize the vault
directory, then run the per-file loop. -/
def backup_specific_dotfiles (config : Config) (fs : FS) (files : List PathV) :
    Except DotfilesError FS :=
  backupSpecificGo config (config.init_vault_dir fs) files

/-- `restore_dotfile` (`restore.rs`): fail with `DotfileNotFound` when the
vault-side copy does not exist; otherwise create the original-side parent
directories and copy vault → original. -/
def restore_dotfile (fs : FS) (d : Dotfile) : Except DotfilesError FS :=
  if fs.pathExists d.vault_path then
    (fs.mkdirParents d.original_path).copy d.vault_path d.original_path
  else .error (.dotfileNotFound d.original_path)

/-- `restore_specific_dotfile` (`restore.rs`): resolve the input; a
non-dotfile is a silent no-op; otherwise restore. -/
def restore_specific_dotfile (config : Config) (fs : FS) (file_path : PathV) :
    Except DotfilesError FS :=
  let path := config.resolve file_path
  if is_dotfile path then restore_dotfile fs (Dotfile.new path config)
  else .ok fs

/-- `list_backed_up_dotfiles` (`restore.rs`): fail with
`NoDotfilesVaultDir` when the vault directory does not exist; otherwise
walk the vault tree and return every file's path relative to the vault
directory. -/
def list_backed_up_dotfiles (config : Config) (fs : FS) :
    Except DotfilesError (List PathV) :=
  if fs.pathExists config.vault_dir then
    .ok ((fs.files.map Prod.fst).filterMap (fun p => p.stripPre config.vault_dir))
  else .error .noDotfilesVaultDir

/-- A snapshot in the commit log (`git2` commit): an opaque identifier
(modelled as the commit's index on the single linear branch), the commit
time, the message, and the staged tree, recorded as the list of
vault-relative keys it contains. -/
structure Commit where
  id : Nat
  time : Nat
  message : String
  tree : List PathV
deriving DecidableEq, Repr

/-- The snapshot log: commits newest-first.  `revwalk` pushed at HEAD
visits this list front to back — the latest-first ancestry walk of the one
linear branch the program ever creates. -/
abbrev Repo := List Commit

/-- `DotfileVersion` (`history.rs`).  The commit identifier is the opaque
handle of the model's `Commit.id`; the timestamp is the commit time (the
source's fallback to the current wall clock applies only to
unrepresentable timestamps, which the model does not produce). -/
structure DotfileVersion where
  commit_id : Nat
  timestamp : Nat
  message : String
deriving DecidableEq, Repr

/-- `get_dotfile_history` (`history.rs`): resolve the input path, map it
through `Dotfile::new`, compute the vault-relative key (failing with
`DotfileNotFound` when the vault path is not under the vault directory),
fail with `DotfileNotFound` when the vault-side file does not exist, fail
with `NoDotfilesVaultDir` when the repository cannot be opened, then walk
the log from HEAD and emit one `DotfileVersion` for every visited commit
whose tree contains the key.  `revwalk.push_head` on a repository with no
commits fails with a git error. -/
def get_dotfile_history (config : Config) (fs : FS) (repo : Option Repo)
    (dotfile_path : PathV) : Except DotfilesError (List DotfileVersion) :=
  let path := config.resolve dotfile_path
  let d := Dotfile.new path config
  match d.vault_path.stripPre config.vault_dir with
  | none => .error (.dotfileNotFound dotfile_path)
  | some relative_path =>
    if fs.pathExists d.vault_path then
      match repo with
      | none => .error .noDotfilesVaultDir
      | some r =>
        if r.isEmpty then .error (.git "reference not found")
        else
          .ok ((r.filter (fun c => decide (relative_path ∈ c.tree))).map
            (fun c => ⟨c.id, c.time, c.message⟩))
    else .error (.dotfileNotFound dotfile_path)

theorem FS.read_write (fs : FS) (p q : PathV) (c : Content) :
    (fs.write p c).read q = if p = q then some c else fs.read q := by
  simp [FS.write, FS.read, lookupFile]

theorem FS.read_write_self (fs : FS) (p : PathV) (c : Content) :
    (fs.write p c).read p = some c := by
  simp [FS.read_write]

theorem FS.read_write_of_read (fs : FS) (p q : PathV) (c : Content)
    (h : fs.read p = some c) : (fs.write p c).read q = fs.read q := by
  rw [FS.read_write]
  split
  · next heq => rw [← heq, h]
  · rfl

theorem FS.read_write_ne (fs : FS) (p q : PathV) (c : Content)
    (h : q ≠ p) : (fs.write p c).read q = fs.read q := by
  rw [FS.read_write]
  exact if_neg (fun he => h he.symm)

theorem FS.read_mkdirAll (fs : FS) (p q : PathV) :
    (fs.mkdirAll p).read q = fs.read q := rfl

theorem FS.read_mkdirParents (fs : FS) (p q : PathV) :
    (fs.mkdirParents p).read q = fs.read q := by
  unfold FS.mkdirParents
  cases p.parent <;> rfl

theorem FS.pathExists_of_read {fs : FS} {p : PathV} {c : Content}
    (h : fs.read p = some c) : fs.pathExists p = true := by
  simp [FS.pathExists, h]

theorem FS.copy_ne {fs : FS} {src dst : PathV} {c : Content}
    (h : fs.read src = some c) (hne : dst ≠ src) :
    fs.copy src dst = .ok (fs.write dst c) := by
  simp only [FS.copy, h, if_neg hne]

theorem FS.copy_self {fs : FS} {p : PathV} {c : Content}
    (h : fs.read p = some c) :
    fs.copy p p = .ok (fs.write p "") := by
  simp [FS.copy, h]

theorem PathV.stripPre_join (a b : PathV) (h : b.absolute = false) :
    (a.join b).stripPre a = some b := by
  cases b with
  | mk babs bcomp =>
    simp only at h
    subst h
    simp [PathV.join, PathV.stripPre, List.prefix_append, List.drop_left]

theorem PathV.eq_of_stripPre {p pre s : PathV} (h : p.stripPre pre = some s) :
    pre.absolute = p.absolute ∧ pre.components <+: p.components ∧
      s = ⟨false, p.components.drop pre.components.length⟩ := by
  unfold PathV.stripPre at h
  split at h
  · next hc => exact ⟨hc.1, hc.2, (Option.some.injEq _ _ ▸ h).symm⟩
  · exact absurd h (by simp)

theorem PathV.absolute_of_stripPre {p pre s : PathV} (h : p.stripPre pre = some s) :
    s.absolute = false := by
  rw [(PathV.eq_of_stripPre h).2.2]

theorem PathV.startsWith_false_iff (p pre : PathV) :
    p.startsWith pre = false ↔ p.stripPre pre = none := by
  unfold PathV.startsWith
  cases p.stripPre pre <;> simp

theorem PathV.startsWith_self (p : PathV) : p.startsWith p = true := by
  simp [PathV.startsWith, PathV.stripPre]

theorem Dotfile.new_original (p : PathV) (config : Config) :
    (Dotfile.new p config).original_path = p := rfl

theorem Dotfile.new_vault_of_strip {p sfx : PathV} (config : Config)
    (h : p.stripPre config.home_dir = some sfx) :
    (Dotfile.new p config).vault_path = config.vault_dir.join sfx := by
  simp [Dotfile.new, h]

theorem Dotfile.new_vault_of_strip_none {p : PathV} (config : Config)
    (h : p.stripPre config.home_dir = none) :
    (Dotfile.new p config).vault_path = config.vault_dir.join p := by
  simp [Dotfile.new, h]

theorem is_dotfile_congr {p q : PathV} (h : p.fileName = q.fileName) :
    is_dotfile p = is_dotfile q := by
  unfold is_dotfile
  rw [h]

theorem backup_dotfile_eq (fs : FS) (F V : PathV) (c : Content) (config : Config)
    (hV : (Dotfile.new F config).vault_path = V)
    (hread : fs.read F = some c) :
    backup_dotfile fs (Dotfile.new F config) =
      .ok ((fs.mkdirParents V).write V (if V = F then "" else c)) := by
  have hread' : (fs.mkdirParents V).read F = some c := by
    rw [FS.read_mkdirParents, hread]
  simp only [backup_dotfile, FS.copy, Dotfile.new_original, hV, hread']

theorem backup_dotfile_eq_ne (fs : FS) (F V : PathV) (c : Content) (config : Config)
    (hV : (Dotfile.new F config).vault_path = V)
    (hread : fs.read F = some c) (hne : V ≠ F) :
    backup_dotfile fs (Dotfile.new F config) =
      .ok ((fs.mkdirParents V).write V c) := by
  rw [backup_dotfile_eq fs F V c config hV hread, if_neg hne]

/-- A home directory `/home/u`. -/
def homeP : PathV := ⟨true, ["home", "u"]⟩

/-- The default vault directory `/home/u/dotfilesvault`. -/
def vaultP : PathV := ⟨true, ["home", "u", "dotfilesvault"]⟩

/-- A concrete configuration. -/
def cfg0 : Config := ⟨vaultP, homeP⟩

/-- A dotfile `/home/u/.bashrc` under the home directory. -/
def bashrcP : PathV := ⟨true, ["home", "u", ".bashrc"]⟩

/-- A dotfile `/etc/.gitconfig` outside the home directory. -/
def etcP : PathV := ⟨true, ["etc", ".gitconfig"]⟩

/-- A filesystem holding only `/home/u/.bashrc`. -/
def fsW : FS := ⟨[(bashrcP, "alias ls")], []⟩

/-! ## Claims -/

/-- **C9**: the dotfile predicate returns true exactly when the final path
component's name begins with `'.'`, and its result depends only on that
final component (not on depth or parent directory names). -/
theorem dotfile_predicate (p : PathV) :
    (is_dotfile p = true ↔ ∃ n, p.fileName = some n ∧ n.data.head? = some '.') ∧
    (∀ q : PathV, q.fileName = p.fileName → is_dotfile q = is_dotfile p) := by
  constructor
  · unfold is_dotfile strStartsWithDot
    cases h : p.fileName with
    | none => simp
    | some n =>
      cases hd : n.data with
      | nil => simp [hd]
      | cons ch chrest => simp [hd]
  · intro q hq
    exact is_dotfile_congr hq

/-- Witness for **C9** at concrete paths. -/
theorem dotfile_predicate_witness :
    is_dotfile ⟨true, ["home", "u", ".bashrc"]⟩ = is_dotfile ⟨false, [".bashrc"]⟩ ∧
    is_dotfile ⟨false, [".bashrc"]⟩ = true :=
  ⟨(dotfile_predicate ⟨false, [".bashrc"]⟩).2 ⟨true, ["home", "u", ".bashrc"]⟩ (by decide),
   (dotfile_predicate ⟨false, [".bashrc"]⟩).1.mpr ⟨".bashrc", by decide, by decide⟩⟩

/-- **C8**: no entry returned by `find_dotfiles` has a path lying inside
the vault directory, for any configuration, filesystem and walked entry
list. -/
theorem discovery_excludes_vault (config : Config) (fs : FS) (entries : List PathV)
    (d : Dotfile) (h : d ∈ find_dotfiles config fs entries) :
    d.original_path.startsWith config.vault_dir = false := by
  unfold find_dotfiles at h
  obtain ⟨p, hp, rfl⟩ := List.mem_map.mp h
  have hpred := (List.mem_filter.mp hp).2
  simp only [Bool.and_eq_true, Bool.not_eq_true'] at hpred
  rw [Dotfile.new_original]
  exact hpred.1

/-- Witness for **C8**: a concrete discovered entry is not under the
vault. -/
theorem discovery_excludes_vault_witness :
    (Dotfile.new bashrcP cfg0).original_path.startsWith cfg0.vault_dir = false :=
  discovery_excludes_vault cfg0 fsW [bashrcP] (Dotfile.new bashrcP cfg0) (by decide)

/-- **C3**: for a path under the home root, mapping it to its vault
location (`Dotfile::new`) and then stripping the vault-root prefix — the
relative-key computation of `get_dotfile_history` — recovers exactly the
suffix of the path relative to the home root. -/
theorem mapping_roundtrip (config : Config) (p sfx : PathV)
    (h : p.stripPre config.home_dir = some sfx) :
    (Dotfile.new p config).vault_path.stripPre config.vault_dir = some sfx := by
  rw [Dotfile.new_vault_of_strip config h]
  exact PathV.stripPre_join _ _ (PathV.absolute_of_stripPre h)

/-- Witness for **C3** at a concrete path. -/
theorem mapping_roundtrip_witness :
    (Dotfile.new bashrcP cfg0).vault_path.stripPre cfg0.vault_dir =
      some ⟨false, [".bashrc"]⟩ :=
  mapping_roundtrip cfg0 bashrcP ⟨false, [".bashrc"]⟩ (by decide)

/-- **C4** counterexample: for the entry of `/etc/.gitconfig` (whose vault
location equals its original location, with the vault-side parent `/etc`
existing), backup followed by immediate restore leaves the file *empty*
(`fs::copy` truncates the destination before reading, and here destination
and source coincide), not byte-identical to its pre-backup content
`"x"`. -/
theorem backup_restore_roundtrip_counterexample :
    ((backup_dotfile ⟨[(etcP, "x")], []⟩ (Dotfile.new etcP cfg0)).bind
      (fun fs2 => restore_dotfile fs2 (Dotfile.new etcP cfg0))).map
        (fun fs3 => fs3.read (Dotfile.new etcP cfg0).original_path) =
      .ok (some "") ∧
    (⟨[(etcP, "x")], []⟩ : FS).read (Dotfile.new etcP cfg0).original_path =
      some "x" ∧
    ("" : Content) ≠ "x" :=
  ⟨rfl, rfl, by decide⟩

/-- **C4** (amended): for every file whose vault location differs from its
original location — which includes every file under the home root whenever
the vault root is not the home root itself — backing the file up and then
immediately restoring it leaves the content at its original location
byte-identical to the pre-backup content (the model, like the code,
creates any missing parent directories, so the claim's existing-parent
premise is not even needed).  The exclusion is forced: when the two
locations coincide the self-copy truncates the file. -/
theorem backup_restore_roundtrip (fs : FS) (d : Dotfile) (c : Content)
    (hne : d.vault_path ≠ d.original_path)
    (h : fs.read d.original_path = some c) :
    ∃ fs2 fs3, backup_dotfile fs d = .ok fs2 ∧ restore_dotfile fs2 d = .ok fs3 ∧
      fs3.read d.original_path = some c := by
  have h1 : (fs.mkdirParents d.vault_path).read d.original_path = some c := by
    rw [FS.read_mkdirParents]
    exact h
  refine ⟨(fs.mkdirParents d.vault_path).write d.vault_path c,
    (((fs.mkdirParents d.vault_path).write d.vault_path c).mkdirParents
      d.original_path).write d.original_path c, ?_, ?_, ?_⟩
  · simp only [backup_dotfile, FS.copy_ne h1 hne]
  · have hex : ((fs.mkdirParents d.vault_path).write d.vault_path c).pathExists
        d.vault_path = true :=
      FS.pathExists_of_read (FS.read_write_self _ _ _)
    have h2 : (((fs.mkdirParents d.vault_path).write d.vault_path c).mkdirParents
        d.original_path).read d.vault_path = some c := by
      rw [FS.read_mkdirParents]
      exact FS.read_write_self _ _ _
    simp only [restore_dotfile, hex, if_true, FS.copy_ne h2 (fun he => hne he.symm)]
  · exact FS.read_write_self _ _ _

/-- Witness for the amended **C4** at a concrete file under the home
root. -/
theorem backup_restore_roundtrip_witness :
    ∃ fs2 fs3, backup_dotfile fsW (Dotfile.new bashrcP cfg0) = .ok fs2 ∧
      restore_dotfile fs2 (Dotfile.new bashrcP cfg0) = .ok fs3 ∧
      fs3.read (Dotfile.new bashrcP cfg0).original_path = some "alias ls" :=
  backup_restore_roundtrip fsW (Dotfile.new bashrcP cfg0) "alias ls" (by decide)
    (by decide)

/-- **C1** counterexample: for the absolute original path `/etc/.gitconfig`
outside the home root, `Dotfile::new` joins an absolute path onto the vault
root, which discards the vault root: the vault location equals the
original path and does *not* lie under the vault root, refuting the
claim's "the result still lies under the vault root". -/
theorem vault_mapping_counterexample :
    (Dotfile.new etcP cfg0).vault_path = etcP ∧
    (Dotfile.new etcP cfg0).vault_path.startsWith cfg0.vault_dir = false := by
  decide

/-- **C1** (amended): the vault location is the vault root joined with the
original path made relative to the home root; when the original does not
lie under the home root, the original is joined verbatim onto the vault
root, and the result lies under the vault root only when the original is
relative — an absolute original replaces the vault root entirely. -/
theorem vault_mapping (config : Config) (orig : PathV) :
    (∀ sfx, orig.stripPre config.home_dir = some sfx →
      (Dotfile.new orig config).vault_path = config.vault_dir.join sfx ∧
      (Dotfile.new orig config).vault_path.startsWith config.vault_dir = true) ∧
    (orig.stripPre config.home_dir = none → orig.absolute = false →
      (Dotfile.new orig config).vault_path =
        ⟨config.vault_dir.absolute, config.vault_dir.components ++ orig.components⟩ ∧
      (Dotfile.new orig config).vault_path.startsWith config.vault_dir = true) ∧
    (orig.stripPre config.home_dir = none → orig.absolute = true →
      (Dotfile.new orig config).vault_path = orig) := by
  refine ⟨?_, ?_, ?_⟩
  · intro sfx h
    refine ⟨Dotfile.new_vault_of_strip config h, ?_⟩
    rw [Dotfile.new_vault_of_strip config h]
    simp [PathV.startsWith, PathV.stripPre_join _ _ (PathV.absolute_of_stripPre h)]
  · intro h habs
    rw [Dotfile.new_vault_of_strip_none config h]
    constructor
    · simp [PathV.join, habs]
    · simp [PathV.startsWith, PathV.stripPre_join _ _ habs]
  · intro h habs
    rw [Dotfile.new_vault_of_strip_none config h]
    simp [PathV.join, habs]

/-- Witness for the amended **C1**: a relative original not under the home
root is appended verbatim and stays under the vault root. -/
theorem vault_mapping_witness :
    (Dotfile.new ⟨false, ["sub", ".relrc"]⟩ cfg0).vault_path =
      ⟨cfg0.vault_dir.absolute, cfg0.vault_dir.components ++ ["sub", ".relrc"]⟩ ∧
    (Dotfile.new ⟨false, ["sub", ".relrc"]⟩ cfg0).vault_path.startsWith
      cfg0.vault_dir = true :=
  (vault_mapping cfg0 ⟨false, ["sub", ".relrc"]⟩).2.1 (by decide) (by decide)

/-- **C10**: for an absolute original path not under the home root, the
vault location equals the original path itself (the join discards the
vault root), so backup and restore each copy the file onto its own
location — the only path written is the original itself, which lies under
the vault root only if the original already did — and the self-copy
(`fs::copy` truncates the destination before reading) leaves the file
empty. -/
theorem absolute_outside_home (config : Config) (orig : PathV) (fs : FS) (c : Content)
    (habs : orig.absolute = true)
    (hout : orig.startsWith config.home_dir = false) :
    (Dotfile.new orig config).vault_path = orig ∧
    (Dotfile.new orig config).vault_path.startsWith config.vault_dir =
      orig.startsWith config.vault_dir ∧
    (fs.read orig = some c →
      (∃ fs2, backup_dotfile fs (Dotfile.new orig config) = .ok fs2 ∧
        fs2.read orig = some "" ∧ ∀ q, q ≠ orig → fs2.read q = fs.read q) ∧
      (∃ fs3, restore_dotfile fs (Dotfile.new orig config) = .ok fs3 ∧
        fs3.read orig = some "" ∧ ∀ q, q ≠ orig → fs3.read q = fs.read q)) := by
  have hstrip : orig.stripPre config.home_dir = none :=
    (PathV.startsWith_false_iff _ _).mp hout
  have hvp : (Dotfile.new orig config).vault_path = orig := by
    rw [Dotfile.new_vault_of_strip_none config hstrip]
    simp [PathV.join, habs]
  refine ⟨hvp, by rw [hvp], ?_⟩
  intro hread
  have hmk : (fs.mkdirParents orig).read orig = some c := by
    rw [FS.read_mkdirParents]
    exact hread
  constructor
  · refine ⟨(fs.mkdirParents orig).write orig "", ?_, FS.read_write_self _ _ _, ?_⟩
    · simp only [backup_dotfile, hvp, Dotfile.new_original, FS.copy_self hmk]
    · intro q hq
      rw [FS.read_write_ne _ _ _ _ hq, FS.read_mkdirParents]
  · have hex : fs.pathExists orig = true := FS.pathExists_of_read hread
    refine ⟨(fs.mkdirParents orig).write orig "", ?_, FS.read_write_self _ _ _, ?_⟩
    · simp only [restore_dotfile, hvp, Dotfile.new_original, hex, if_true,
        FS.copy_self hmk]
    · intro q hq
      rw [FS.read_write_ne _ _ _ _ hq, FS.read_mkdirParents]

/-- Witness for **C10** at `/etc/.gitconfig` with a concrete filesystem. -/
theorem absolute_outside_home_witness :
    (Dotfile.new ⟨true, ["opt", ".vimrc"]⟩ cfg0).vault_path =
      ⟨true, ["opt", ".vimrc"]⟩ :=
  (absolute_outside_home cfg0 ⟨true, ["opt", ".vimrc"]⟩
    ⟨[(⟨true, ["opt", ".vimrc"]⟩, "syntax on")], []⟩ "syntax on"
    (by decide) (by decide)).1

/-- **C5** counterexample: `/etc/.gitconfig` exists (content `"x"`) and is
a dotfile, yet `backup_specific_dotfiles` does not copy it into the vault:
its vault location equals the resolved path itself, and the real
`fs::copy` self-copy truncates the file in place, leaving `""` at the
vault location instead of the file's content. -/
theorem backup_specific_counterexample :
    (backupSpecificGo cfg0 ⟨[(etcP, "x")], []⟩ [etcP]).map
      (fun fs2 => fs2.read (Dotfile.new etcP cfg0).vault_path) = .ok (some "") ∧
    ("" : Content) ≠ "x" :=
  ⟨rfl, by decide⟩

/-- **C5** (amended): `backup_specific_dotfiles` initializes the vault
directory and then handles each resolved input in order: a missing
resolved path aborts the whole remaining batch with `DotfileNotFound`; an
existing non-dotfile is skipped silently and processing continues; an
existing dotfile whose vault location differs from the resolved path (as
is the case for every path under the home root) is copied into the vault
and processing continues from the updated filesystem.  The last proviso is
forced: an absolute dotfile outside the home root has its vault location
equal to the resolved path, and the self-copy truncates the file in place
instead of copying it into the vault. -/
theorem backup_specific_behavior (config : Config) (fs : FS) (f : PathV)
    (rest : List PathV) :
    (backup_specific_dotfiles config fs (f :: rest) =
      backupSpecificGo config (config.init_vault_dir fs) (f :: rest)) ∧
    (fs.pathExists (config.resolve f) = false →
      backupSpecificGo config fs (f :: rest) = .error (.dotfileNotFound f)) ∧
    (fs.pathExists (config.resolve f) = true → is_dotfile (config.resolve f) = false →
      backupSpecificGo config fs (f :: rest) = backupSpecificGo config fs rest) ∧
    (fs.pathExists (config.resolve f) = true → is_dotfile (config.resolve f) = true →
      (Dotfile.new (config.resolve f) config).vault_path ≠ config.resolve f →
      ∀ c, fs.read (config.resolve f) = some c →
        ∃ fs2, backup_dotfile fs (Dotfile.new (config.resolve f) config) = .ok fs2 ∧
          fs2.read (Dotfile.new (config.resolve f) config).vault_path = some c ∧
          backupSpecificGo config fs (f :: rest) = backupSpecificGo config fs2 rest) := by
  refine ⟨rfl, ?_, ?_, ?_⟩
  · intro hex
    simp only [backupSpecificGo, hex, Bool.false_eq_true, if_false]
  · intro hex hd
    simp only [backupSpecificGo, hex, if_true, hd, Bool.false_eq_true, if_false]
  · intro hex hd hne c hread
    have hb := backup_dotfile_eq_ne fs (config.resolve f)
      (Dotfile.new (config.resolve f) config).vault_path c config rfl hread hne
    refine ⟨(fs.mkdirParents (Dotfile.new (config.resolve f) config).vault_path).write
      (Dotfile.new (config.resolve f) config).vault_path c, hb,
      FS.read_write_self _ _ _, ?_⟩
    simp only [backupSpecificGo, hex, if_true, hd, hb]

/-- Witness for **C5**: a missing named file aborts with
`DotfileNotFound`. -/
theorem backup_specific_behavior_witness :
    backupSpecificGo cfg0 fsW [⟨true, ["home", "u", ".missing"]⟩] =
      .error (.dotfileNotFound ⟨true, ["home", "u", ".missing"]⟩) :=
  (backup_specific_behavior cfg0 fsW ⟨true, ["home", "u", ".missing"]⟩ []).2.1 (by decide)

/-- **C6** counterexample: for the input `/etc/.gitconfig`, the vault-side
copy exists (it is the resolved path itself, content `"x"`), yet
`restore_specific_dotfile` does not leave the vault content at the
original location: the real `fs::copy` self-copy truncates the file,
leaving `""` instead of `"x"`. -/
theorem restore_by_path_counterexample :
    (⟨[(etcP, "x")], []⟩ : FS).read
      (Dotfile.new (cfg0.resolve etcP) cfg0).vault_path = some "x" ∧
    (restore_specific_dotfile cfg0 ⟨[(etcP, "x")], []⟩ etcP).map
      (fun fs2 => fs2.read (cfg0.resolve etcP)) = .ok (some "") ∧
    ("" : Content) ≠ "x" :=
  ⟨rfl, rfl, by decide⟩

/-- **C6** (amended): `restore_specific_dotfile` on a non-dotfile is a
silent no-op returning success; on a dotfile it fails with
`DotfileNotFound` exactly when the vault-side copy does not exist, and
when the vault-side file exists with content `c` and the vault location
differs from the resolved path (as is the case for every path under the
home root) it (creating original-side parent directories) copies
vault → original, unconditionally leaving content `c` at the original
location.  The proviso is forced: for a resolved path outside the home
root the vault location is the path itself and the self-copy truncates the
file instead of copying it. -/
theorem restore_by_path_behavior (config : Config) (fs : FS) (f : PathV) :
    (is_dotfile (config.resolve f) = false →
      restore_specific_dotfile config fs f = .ok fs) ∧
    (is_dotfile (config.resolve f) = true →
      (restore_specific_dotfile config fs f =
          .error (.dotfileNotFound (config.resolve f)) ↔
        fs.pathExists (Dotfile.new (config.resolve f) config).vault_path = false)) ∧
    (is_dotfile (config.resolve f) = true →
      (Dotfile.new (config.resolve f) config).vault_path ≠ config.resolve f →
      ∀ c, fs.read (Dotfile.new (config.resolve f) config).vault_path = some c →
        ∃ fs2, restore_specific_dotfile config fs f = .ok fs2 ∧
          fs2.read (config.resolve f) = some c) := by
  refine ⟨?_, ?_, ?_⟩
  · intro hd
    simp only [restore_specific_dotfile, hd, Bool.false_eq_true, if_false]
  · intro hd
    simp only [restore_specific_dotfile, hd, if_true, restore_dotfile,
      Dotfile.new_original]
    cases hex : fs.pathExists (Dotfile.new (config.resolve f) config).vault_path with
    | false => simp
    | true =>
      simp only [if_true, FS.copy]
      cases hread : (fs.mkdirParents (config.resolve f)).read
          (Dotfile.new (config.resolve f) config).vault_path <;> simp [hread]
  · intro hd hne c hread
    have hex : fs.pathExists (Dotfile.new (config.resolve f) config).vault_path = true :=
      FS.pathExists_of_read hread
    have hr : (fs.mkdirParents
        (Dotfile.new (config.resolve f) config).original_path).read
        (Dotfile.new (config.resolve f) config).vault_path = some c := by
      rw [FS.read_mkdirParents]
      exact hread
    refine ⟨(fs.mkdirParents
      (Dotfile.new (config.resolve f) config).original_path).write
      (Dotfile.new (config.resolve f) config).original_path c, ?_, ?_⟩
    · simp only [restore_specific_dotfile, hd, if_true, restore_dotfile, hex, if_true]
      exact FS.copy_ne hr (fun he => hne he.symm)
    · exact FS.read_write_self _ _ _

/-- Witness for **C6**: restoring a non-dotfile name is a silent no-op. -/
theorem restore_by_path_behavior_witness :
    restore_specific_dotfile cfg0 fsW ⟨true, ["home", "u", "regular.txt"]⟩ = .ok fsW :=
  (restore_by_path_behavior cfg0 fsW ⟨true, ["home", "u", "regular.txt"]⟩).1 (by decide)

/-- **C7** counterexample: with the vault root absent and the snapshot log
uninitialized, `get_dotfile_history` fails with `DotfileNotFound`
(`EntryNotFound`), not `NoDotfilesVaultDir` (`VaultMissing`): the
vault-file existence check precedes opening the repository.
`list_backed_up_dotfiles` does fail with `NoDotfilesVaultDir`. -/
theorem missing_vault_counterexample :
    get_dotfile_history cfg0 ⟨[], []⟩ none bashrcP =
      .error (.dotfileNotFound bashrcP) ∧
    get_dotfile_history cfg0 ⟨[], []⟩ none bashrcP ≠
      .error .noDotfilesVaultDir ∧
    list_backed_up_dotfiles cfg0 ⟨[], []⟩ = .error .noDotfilesVaultDir := by
  have h0 : get_dotfile_history cfg0 ⟨[], []⟩ none bashrcP =
      .error (.dotfileNotFound bashrcP) := rfl
  refine ⟨h0, ?_, rfl⟩
  rw [h0]
  simp

/-- **C7** (amended): before any backup has been performed (no file or
directory exists under the vault root), `list_backed_up_dotfiles` fails
with `NoDotfilesVaultDir` (`VaultMissing`), while `get_dotfile_history`
fails with `DotfileNotFound` (`EntryNotFound`) for every input path and
every repository state, never with `VaultMissing`. -/
theorem missing_vault_guard (config : Config) (fs : FS) (repo : Option Repo) (p : PathV)
    (hv : ∀ q, q.startsWith config.vault_dir = true → fs.pathExists q = false) :
    get_dotfile_history config fs repo p = .error (.dotfileNotFound p) ∧
    list_backed_up_dotfiles config fs = .error .noDotfilesVaultDir := by
  constructor
  · unfold get_dotfile_history
    cases hs : (Dotfile.new (config.resolve p) config).vault_path.stripPre
        config.vault_dir with
    | none => simp [hs]
    | some k =>
      have hsw : (Dotfile.new (config.resolve p) config).vault_path.startsWith
          config.vault_dir = true := by
        simp [PathV.startsWith, hs]
      have hne := hv _ hsw
      simp [hs, hne]
  · unfold list_backed_up_dotfiles
    have hne : fs.pathExists config.vault_dir = false :=
      hv _ (PathV.startsWith_self _)
    simp [hne]

/-- Witness for the amended **C7** on a concrete vault-free filesystem. -/
theorem missing_vault_guard_witness :
    get_dotfile_history cfg0 ⟨[], []⟩ (some []) etcP =
      .error (.dotfileNotFound etcP) ∧
    list_backed_up_dotfiles cfg0 ⟨[], []⟩ = .error .noDotfilesVaultDir :=
  missing_vault_guard cfg0 ⟨[], []⟩ (some []) etcP (by
    intro q hq
    simp [FS.pathExists, FS.read, lookupFile])

